import Mathlib

/-!
Verification of the sample-collection core of cobaya.

Shallow embedding of `src/cobaya/collection.py`: the index/slice bounds
checks, the growable `Collection` table with its shared value dictionary,
the `OnePoint` single-point wrapper, the `OneSamplePoint` deferred-weight
batcher, and the text-driver delta flush bookkeeping.

Python floats are modelled as rationals, Python ints as `Int`/`Nat`,
`np.nan` cells as `none : Option ℚ`, and raised exceptions as an explicit
`PyErr` value.
-/

set_option autoImplicit false

namespace Cobaya

/-- The kinds of Python exceptions the modelled code can raise or catch.
`loggedError` is cobaya's own `LoggedError`; the others are builtins. -/
inductive PyErr where
  | indexError
  | typeError
  | valueError
  | loggedError
  deriving DecidableEq, Repr

/-- Embedding of `check_index(i, imax)` (collection.py lines 39-45):
raises `IndexError` when `(i > 0 and i >= imax) or (i < 0 and -i > imax)`;
otherwise a negative index resolves to `imax + i` and a non-negative one
to `i` itself. -/
def check_index (i : Int) (imax : Int) : Except PyErr Int :=
  if (i > 0 ∧ i ≥ imax) ∨ (i < 0 ∧ -i > imax) then
    .error .indexError
  else if i < 0 then
    .ok (imax + i)
  else
    .ok i

/-- One slice limit of `check_slice`: Python evaluates `lim >= 0` first,
which raises `TypeError` when the limit is `None` (an omitted bound);
a non-negative limit is clamped to `min(imax, lim)` and a negative one
resolves to `imax + lim`. -/
def resolve_lim (lim : Option Int) (imax : Int) : Except PyErr Int :=
  match lim with
  | none => .error .typeError
  | some l => if l ≥ 0 then .ok (min imax l) else .ok (imax + l)

/-- Embedding of `check_slice(ij, imax)` (collection.py lines 49-56):
resolves the start and stop limits through `resolve_lim` and passes the
step through unchanged. -/
def check_slice (start stop step : Option Int) (imax : Int) :
    Except PyErr (Int × Int × Option Int) := do
  let s ← resolve_lim start imax
  let e ← resolve_lim stop imax
  return (s, e, step)

/-! ## OneSamplePoint: the deferred-weight batcher -/

/-- The thinning state of `OneSamplePoint`: the configured `output_thin`
factor and the `_added_weight` carried remainder. -/
structure OneSamplePointState where
  output_thin : ℕ
  added_weight : ℕ
  deriving DecidableEq, Repr

/-- Embedding of `OneSamplePoint.add_to_collection` (collection.py lines
374-386), restricted to its weight bookkeeping: returns the new state and
`some w` when a row is committed to the collection with weight `w`
(`return True`), or `none` when nothing is committed (`return False`). -/
def add_to_collection (s : OneSamplePointState) (weight : ℕ) :
    OneSamplePointState × Option ℕ :=
  if s.output_thin > 1 then
    let aw := s.added_weight + weight
    if aw ≥ s.output_thin then
      ({ s with added_weight := aw % s.output_thin }, some (aw / s.output_thin))
    else
      ({ s with added_weight := aw }, none)
  else
    (s, some weight)

/-- Process a whole sequence of raw weights through the batcher, collecting
the emitted weights in order. -/
def runBatcher (s : OneSamplePointState) : List ℕ → OneSamplePointState × List ℕ
  | [] => (s, [])
  | w :: ws =>
    let (s1, out) := add_to_collection s w
    let (s2, outs) := runBatcher s1 ws
    (s2, out.toList ++ outs)

/-! ## The Collection: schema, shared value dictionary, growable table -/

/-- The names cobaya imports from `cobaya.conventions`. -/
def _separator : String := "__"

/-- Column name of the sample weight. -/
def _weight : String := "weight"

/-- Column name of the negative log-posterior. -/
def _minuslogpost : String := "minuslogpost"

/-- Column name of the aggregate negative log-prior. -/
def _minuslogprior : String := "minuslogprior"

/-- Column name of the aggregate chi-squared. -/
def _chi2 : String := "chi2"

/-- The model metadata `BaseCollection.__init__` consumes: ordered lists of
sampled-parameter, derived-parameter, prior-component and
likelihood-component names. -/
structure ModelInfo where
  sampled_params : List String
  derived_params : List String
  prior_names : List String
  like_names : List String

/-- The per-component prior column names (`collection.py` lines 65-66). -/
def minuslogprior_names (m : ModelInfo) : List String :=
  m.prior_names.map (fun p => _minuslogprior ++ _separator ++ p)

/-- The per-component likelihood column names (`collection.py` line 67). -/
def chi2_names (m : ModelInfo) : List String :=
  m.like_names.map (fun l => _chi2 ++ _separator ++ l)

/-- The fixed ordered column schema (`collection.py` lines 68-74): weight,
negative log-posterior, sampled parameters, derived parameters (minus any
name already counted as a likelihood column), aggregate and per-component
negative log-prior, aggregate and per-component chi-squared. -/
def columns (m : ModelInfo) : List String :=
  [_weight, _minuslogpost] ++ m.sampled_params
    ++ m.derived_params.filter (fun p => !((chi2_names m).contains p))
    ++ [_minuslogprior] ++ minuslogprior_names m
    ++ [_chi2] ++ chi2_names m

/-- A Python dict from column names to float cells (`none` is `np.nan`),
as an insertion-ordered association list. -/
def Dict : Type := List (String × Option ℚ)

/-- Python dict assignment `dic[k] = v`: an existing key keeps its
position; a new key is appended at the end. -/
def dictSet (d : Dict) (k : String) (v : Option ℚ) : Dict :=
  match d with
  | [] => [(k, v)]
  | (k1, v1) :: rest =>
    if k1 = k then (k, v) :: rest else (k1, v1) :: dictSet rest k v

/-- Python dict lookup `dic[k]` (outer `none` = missing key). -/
def dictGet (d : Dict) (k : String) : Option (Option ℚ) :=
  match d with
  | [] => none
  | (k1, v1) :: rest => if k1 = k then some v1 else dictGet rest k

/-- The state of a `Collection`: the schema metadata, the shared
`_value_dict` (line 83, created once and never cleared), the physical
table rows (`self.data`) and the logical length `_n`. -/
structure CollectionState where
  info : ModelInfo
  value_dict : Dict
  data : List (List (Option ℚ))
  n : ℕ

/-- A fully uninitialized (`np.nan`) physical row. -/
def nanRow (m : ModelInfo) : List (Option ℚ) :=
  (columns m).map (fun _ => none)

/-- `Collection.__init__` on a fresh run (lines 83 and 117-118): the value
dictionary maps every column to `np.nan` and the table is `initial_size`
uninitialized rows with logical length `0`. -/
def initCollection (m : ModelInfo) (initial_size : ℕ) : CollectionState :=
  { info := m
    value_dict := (columns m).map (fun c => (c, none))
    data := List.replicate initial_size (nanRow m)
    n := 0 }

/-- Python `sum` over an optional list: `sum(None)` raises `TypeError`
(`NoneType` is not iterable); `sum(xs)` left-folds `+` from `0`. -/
def pySum (xs : Option (List ℚ)) : Except PyErr ℚ :=
  match xs with
  | none => .error .typeError
  | some l => .ok (l.foldl (fun a b => a + b) 0)

/-- Lines 143-149: the `try ... except ValueError` around the component
sum; only a `ValueError` is converted into the descriptive `LoggedError`
— any other exception (in particular the `TypeError` from `sum(None)`)
propagates as is. -/
def catchValueError (r : Except PyErr ℚ) : Except PyErr ℚ :=
  match r with
  | .ok v => .ok v
  | .error .valueError => .error .loggedError
  | .error e => .error e

/-- Lines 143-149 continued: `sum(logpriors) + sum(loglikes)`, evaluating
the left sum first as Python does. -/
def sumPriorsLikes (logpriors loglikes : Option (List ℚ)) : Except PyErr ℚ :=
  match pySum logpriors with
  | .error e => .error e
  | .ok a =>
    match pySum loglikes with
    | .error e => .error e
    | .ok b => .ok (a + b)

def computeLogpost (logpost : Option ℚ) (logpriors loglikes : Option (List ℚ)) :
    Except PyErr ℚ :=
  match logpost with
  | some lp => .ok lp
  | none => catchValueError (sumPriorsLikes logpriors loglikes)

/-- Write `-f(vals[i])`-style entries for zipped name/value pairs (the
loops of lines 152-153 and 156-157; Python `zip` truncates to the shorter
list). -/
def setPairs (d : Dict) (names : List String) (vals : List ℚ) (f : ℚ → ℚ) : Dict :=
  (names.zip vals).foldl (fun acc p => dictSet acc p.1 (some (f p.2))) d

/-- Embedding of `Collection._add_dict` (lines 140-171). The dict is
mutated in place step by step, so on error the mutations made so far
persist: the result is the (possibly partially updated) dict together
with the raised exception, if any. -/
def add_dict (m : ModelInfo) (dic : Dict) (values : List ℚ)
    (derived : Option (List ℚ)) (weight : ℚ) (logpost : Option ℚ)
    (logpriors loglikes : Option (List ℚ)) : Dict × Option PyErr :=
  let dic := dictSet dic _weight (some weight)
  match computeLogpost logpost logpriors loglikes with
  | .error e => (dic, some e)
  | .ok lp =>
    let dic := dictSet dic _minuslogpost (some (-lp))
    let dic := match logpriors with
      | none => dic
      | some lps =>
        dictSet (setPairs dic (minuslogprior_names m) lps (fun v => -v))
          _minuslogprior (some (-(lps.foldl (fun a b => a + b) 0)))
    let dic := match loglikes with
      | none => dic
      | some lls =>
        dictSet (setPairs dic (chi2_names m) lls (fun v => -2 * v))
          _chi2 (some (-2 * lls.foldl (fun a b => a + b) 0))
    if values.length ≠ m.sampled_params.length then
      (dic, some .loggedError)
    else
      let dic := (m.sampled_params.zip values).foldl
        (fun acc p => dictSet acc p.1 (some p.2)) dic
      match derived with
      | none => (dic, none)
      | some ds =>
        if ds.length ≠ m.derived_params.length then
          (dic, some .loggedError)
        else
          ((m.derived_params.zip ds).foldl
            (fun acc p => dictSet acc p.1 (some p.2)) dic, none)

/-- The module-level default enlargement chunk (line 34). -/
def enlargement_size : ℕ := 100

/-- How many rows `np.arange(a, b)` (unit step) yields: `⌈b - a⌉` when
positive, else zero. -/
def arangeCount (a b : ℚ) : ℕ :=
  if b ≤ a then 0 else (⌈b - a⌉).toNat

/-- The number of rows appended by `_enlarge_if_needed` (lines 175-182):
with a truthy (non-zero) `enlargement_factor` the intended amount is
`capacity * factor` (realized through `np.arange`); otherwise the fixed
`enlargement_size` chunk. -/
def growAmount (capacity : ℕ) (enlargement_factor : Option ℚ) : ℕ :=
  match enlargement_factor with
  | some f =>
    if f = 0 then arangeCount 0 (enlargement_size : ℚ)
    else arangeCount 0 ((capacity : ℚ) * f)
  | none => arangeCount 0 (enlargement_size : ℚ)

/-- Embedding of `Collection._enlarge_if_needed` (lines 173-182): when the
logical length has reached the physical capacity, concatenate freshly
uninitialized rows. -/
def enlarge_if_needed (factor : Option ℚ) (c : CollectionState) : CollectionState :=
  if c.n ≥ c.data.length then
    { c with data :=
        c.data ++ List.replicate (growAmount c.data.length factor) (nanRow c.info) }
  else c

/-- Embedding of `Collection.add` (lines 132-138): enlarge if needed,
update the shared value dictionary (keeping its partial mutations if
`_add_dict` raises), then write the dictionary's values as row `_n` and
increment `_n`. Writing at a row index at or past the physical capacity
is a pandas `IndexError`. -/
def addPoint (factor : Option ℚ) (c : CollectionState) (values : List ℚ)
    (derived : Option (List ℚ)) (weight : ℚ) (logpost : Option ℚ)
    (logpriors loglikes : Option (List ℚ)) : CollectionState × Option PyErr :=
  let c1 := enlarge_if_needed factor c
  let r := add_dict c1.info c1.value_dict values derived weight logpost logpriors loglikes
  match r.2 with
  | some e => ({ c1 with value_dict := r.1 }, some e)
  | none =>
    if c1.n < c1.data.length then
      ({ c1 with value_dict := r.1,
                 data := c1.data.set c1.n (r.1.map (fun p => p.2)),
                 n := c1.n + 1 }, none)
    else
      ({ c1 with value_dict := r.1 }, some .indexError)

/-- Embedding of `OnePoint.add` (lines 411-413): perform the ordinary
append, then reset the counter `_n` to `0` "so the DataFrame never fills
up". -/
def onePointAdd (factor : Option ℚ) (c : CollectionState) (values : List ℚ)
    (derived : Option (List ℚ)) (weight : ℚ) (logpost : Option ℚ)
    (logpriors loglikes : Option (List ℚ)) : CollectionState × Option PyErr :=
  match addPoint factor c values derived weight logpost logpriors loglikes with
  | (c1, some e) => (c1, some e)
  | (c1, none) => ({ c1 with n := 0 }, none)

/-- Position of a column name in the schema. -/
def colIdx (cols : List String) (col : String) : Option ℕ :=
  match cols with
  | [] => none
  | c :: rest => if c = col then some 0 else (colIdx rest col).map (fun j => j + 1)

/-- Read one cell of the table by row index and column name (the row
layout follows the value dictionary, i.e. the schema order). -/
def getCell (c : CollectionState) (i : ℕ) (col : String) : Option (Option ℚ) :=
  match c.data.get? i with
  | none => none
  | some row =>
    match colIdx (columns c.info) col with
    | none => none
    | some j => row.get? j

/-- A small concrete model: one sampled parameter, no derived parameters,
one prior component, two likelihood components (the schema of the spec's
worked example). -/
def exampleModel : ModelInfo :=
  { sampled_params := ["a"]
    derived_params := []
    prior_names := ["p0"]
    like_names := ["l1", "l2"] }

/-- An append to a fresh example-schema collection with the log-posterior
omitted: it is derived from the prior and likelihood components. -/
def generalAppend (v lp1 ll1 ll2 : ℚ) : CollectionState × Option PyErr :=
  addPoint none (initCollection exampleModel 2) [v] none 1 none
    (some [lp1]) (some [ll1, ll2])

/-- An append to a fresh example-schema collection with an explicit
log-posterior and no components. -/
def explicitPostAppend (v lp : ℚ) : CollectionState × Option PyErr :=
  addPoint none (initCollection exampleModel 2) [v] none 1 (some lp) none none

/-- First of two consecutive appends: supplies the prior and likelihood
components. -/
def firstAppend : CollectionState × Option PyErr :=
  addPoint none (initCollection exampleModel 2) [1] none 1 none
    (some [-1]) (some [-2, -3])

/-- Second append: omits priors and likelihoods, giving an explicit
log-posterior instead. -/
def secondAppend : CollectionState × Option PyErr :=
  addPoint none firstAppend.1 [2] none 1 (some (-5)) none none

/-! ## Text-driver flush bookkeeping -/

/-- The bookkeeping a flush sees: the logical length `_n` and the
`_n_last_out` marker of the last row already written out. -/
structure FlushState where
  n : ℕ
  n_last_out : ℕ
  deriving DecidableEq, Repr

/-- What one call of `_dump_slice__txt` wrote: the number of data rows and
whether a header line of column names was included. -/
structure WriteEvent where
  rows : ℕ
  header : Bool
  deriving DecidableEq, Repr

/-- Embedding of `Collection._dump_slice__txt(n_min, n_max)` (collection.py
lines 323-338): returns without writing when `_n_last_out == n_max`;
otherwise sets `_n_last_out = n_max` and appends the rows `[n_min, n_max)`
to the file, with a header exactly when `n_min` is falsy (i.e. zero). -/
def dump_slice_txt (s : FlushState) (n_min n_max : ℕ) :
    FlushState × Option WriteEvent :=
  if s.n_last_out = n_max then
    (s, none)
  else
    ({ s with n_last_out := n_max }, some ⟨n_max - n_min, n_min = 0⟩)

/-- Embedding of `Collection._update__txt` (collection.py lines 320-321):
dumps the slice from `_n_last_out` to the logical length. -/
def update_txt (s : FlushState) : FlushState × Option WriteEvent :=
  dump_slice_txt s s.n_last_out s.n

end Cobaya

namespace Cobaya

/-! ## Theorems: bounds checks and the batcher -/

/-- C1: the out-of-range test of `check_index` uses `i > 0`, not
`i >= 0`, so index `0` is never range-checked: on an empty collection
(`imax = 0`) reading index `0` does not raise but resolves to row `0`,
reaching the unfilled part of the dataframe — against the claim (and the
code's own comment) that every read at or beyond the logical length
raises out-of-range. -/
theorem check_index_zero_of_empty_no_raise :
    check_index 0 0 = Except.ok 0 := by rfl

/-- C5: `check_slice` compares each slice limit with `0` before handling
it, so an omitted (`None`) start or stop bound raises a `TypeError`
(`None >= 0` is not supported) — against the claim that reading a range
never raises for every slice argument. The in-range clamping itself does
hold: a stop of `L + 1000` is clamped to `L`. -/
theorem check_slice_none_start_raises :
    check_slice none (some 5) none 3 = Except.error PyErr.typeError ∧
    check_slice (some 0) (some 1003) none 3 = check_slice (some 0) (some 3) none 3 := by
  exact ⟨rfl, rfl⟩

/-- C7: flush-delta idempotence and the header rule. A second
`_update__txt` right after one (no intervening appends) writes nothing,
because `_n_last_out` already equals the logical length; and any
`_dump_slice__txt` call that does write includes the header line exactly
when its starting row index `n_min` is `0`. -/
theorem flush_delta_idempotent_and_header (s : FlushState) :
    ((update_txt (update_txt s).1).2 = none) ∧
    (∀ (n_min n_max : ℕ) (t : FlushState) (ev : WriteEvent),
      dump_slice_txt s n_min n_max = (t, some ev) →
      (ev.header = true ↔ n_min = 0)) := by
  constructor
  · by_cases h : s.n_last_out = s.n
    · simp [update_txt, dump_slice_txt, h]
    · simp [update_txt, dump_slice_txt, h]
  · intro n_min n_max t ev hev
    by_cases h : s.n_last_out = n_max
    · simp [dump_slice_txt, h] at hev
    · simp only [dump_slice_txt, if_neg h, Prod.mk.injEq, Option.some.injEq] at hev
      rw [← hev.2]
      simp

/-- Witness for `flush_delta_idempotent_and_header` at a concrete state
with two unflushed rows: the first write carries the header. -/
theorem flush_delta_idempotent_and_header_witness :
    ((update_txt (update_txt ⟨2, 0⟩).1).2 = none) ∧
    ((⟨2, true⟩ : WriteEvent).header = true ↔ 0 = 0) :=
  ⟨(flush_delta_idempotent_and_header ⟨2, 0⟩).1,
   (flush_delta_idempotent_and_header ⟨2, 0⟩).2 0 2 ⟨2, 2⟩ ⟨2, true⟩ (by decide)⟩

/-- C8 counterexample: with a configured multiplicative enlargement
factor and starting capacity `0`, growth triggers (`_n >= shape[0]`) but
adds `ceil(0 * factor) = 0` rows: the new capacity does not strictly
exceed the old one, and the append then fails with an `IndexError` when
writing row `0` of a zero-row table. -/
theorem enlarge_zero_capacity_factor_no_growth :
    ((initCollection exampleModel 0).n ≥ (initCollection exampleModel 0).data.length) ∧
    ¬ ((initCollection exampleModel 0).data.length
        < (enlarge_if_needed (some (1/2)) (initCollection exampleModel 0)).data.length) ∧
    (addPoint (some (1/2)) (initCollection exampleModel 0) [0] none 1 (some 0)
        none none).2 = some PyErr.indexError := by
  refine ⟨by simp [initCollection], ?_, ?_⟩
  · norm_num [initCollection, enlarge_if_needed, growAmount, arangeCount]
  · norm_num [addPoint, add_dict, computeLogpost, enlarge_if_needed, growAmount,
      arangeCount, initCollection, exampleModel]

/-- C8 amended: when growth triggers (logical length equal to physical
capacity), all previously held rows keep their values and the capacity
strictly grows — under the additive chunk policy for every starting
capacity, and under a configured (truthy, positive) multiplicative
factor for every starting capacity of at least one row (at capacity `0`
the multiplicative policy adds `ceil(0 * f) = 0` rows). -/
theorem growth_preserves_rows_and_strictly_grows (factor : Option ℚ)
    (c : CollectionState) (h : c.n = c.data.length)
    (hf : factor = none ∨ factor = some 0 ∨
      ∃ f, factor = some f ∧ 0 < f ∧ 1 ≤ c.data.length) :
    c.data.length < (enlarge_if_needed factor c).data.length ∧
    (enlarge_if_needed factor c).data.take c.data.length = c.data ∧
    (enlarge_if_needed factor c).n = c.n := by
  have hge : c.n ≥ c.data.length := ge_of_eq h
  have hgrow : 1 ≤ growAmount c.data.length factor := by
    rcases hf with rfl | rfl | ⟨f, rfl, hf0, hcap⟩
    · norm_num [growAmount, arangeCount, enlargement_size]
    · norm_num [growAmount, arangeCount, enlargement_size]
    · have hne : f ≠ 0 := ne_of_gt hf0
      have hpos : 0 < (c.data.length : ℚ) * f := by
        have hc : 0 < (c.data.length : ℚ) := by exact_mod_cast hcap
        exact mul_pos hc hf0
      simp only [growAmount, if_neg hne]
      unfold arangeCount
      rw [if_neg (not_le.mpr hpos)]
      have hceil : (0 : ℤ) < ⌈(c.data.length : ℚ) * f - 0⌉ := by
        rw [sub_zero]
        exact Int.ceil_pos.mpr hpos
      omega
  refine ⟨?_, ?_, ?_⟩
  · unfold enlarge_if_needed
    rw [if_pos hge]
    simp only [List.length_append, List.length_replicate]
    omega
  · unfold enlarge_if_needed
    rw [if_pos hge]
    exact List.take_left _ _
  · unfold enlarge_if_needed
    rw [if_pos hge]

/-- Witness for `growth_preserves_rows_and_strictly_grows` with the
default additive policy on a full zero-capacity fresh collection. -/
theorem growth_preserves_rows_and_strictly_grows_witness :
    ((initCollection exampleModel 0).n = (initCollection exampleModel 0).data.length) ∧
    ((initCollection exampleModel 0).data.length
        < (enlarge_if_needed none (initCollection exampleModel 0)).data.length ∧
      (enlarge_if_needed none (initCollection exampleModel 0)).data.take
        (initCollection exampleModel 0).data.length
        = (initCollection exampleModel 0).data ∧
      (enlarge_if_needed none (initCollection exampleModel 0)).n
        = (initCollection exampleModel 0).n) :=
  ⟨rfl, growth_preserves_rows_and_strictly_grows none (initCollection exampleModel 0)
    rfl (Or.inl rfl)⟩

/-- Helper: when `_add_dict` is reached with an explicit log-posterior
but a sampled-values list (or a provided derived-values list) of the
wrong arity, it raises the `LoggedError` of lines 159-162 or 166-169. -/
theorem add_dict_arity_err (m : ModelInfo) (dic : Dict) (values : List ℚ)
    (derived : Option (List ℚ)) (weight lp : ℚ) (lps lls : Option (List ℚ))
    (h : values.length ≠ m.sampled_params.length ∨
      ∃ ds, derived = some ds ∧ ds.length ≠ m.derived_params.length) :
    (add_dict m dic values derived weight (some lp) lps lls).2
      = some PyErr.loggedError := by
  unfold add_dict
  simp only [computeLogpost]
  rcases h with h | ⟨ds, rfl, hds⟩
  · simp [h]
  · by_cases hv : values.length = m.sampled_params.length
    · simp [hv, hds]
    · simp [hv]

/-- C9: an append whose sampled-values list (or provided derived-values
list) has the wrong arity raises the arity-mismatch `LoggedError` and
leaves the collection unchanged: the logical length is the same and no
table row is written (all pre-existing physical rows keep their values). -/
theorem arity_mismatch_append_atomic (factor : Option ℚ) (c : CollectionState)
    (values : List ℚ) (derived : Option (List ℚ)) (weight lp : ℚ)
    (logpriors loglikes : Option (List ℚ))
    (h : values.length ≠ c.info.sampled_params.length ∨
      ∃ ds, derived = some ds ∧ ds.length ≠ c.info.derived_params.length) :
    (addPoint factor c values derived weight (some lp) logpriors loglikes).2
      = some PyErr.loggedError ∧
    (addPoint factor c values derived weight (some lp) logpriors loglikes).1.n
      = c.n ∧
    (addPoint factor c values derived weight (some lp) logpriors
        loglikes).1.data.take c.data.length = c.data := by
  have hinfo : (enlarge_if_needed factor c).info = c.info := by
    unfold enlarge_if_needed; split <;> rfl
  have hn : (enlarge_if_needed factor c).n = c.n := by
    unfold enlarge_if_needed; split <;> rfl
  have hdata : (enlarge_if_needed factor c).data.take c.data.length = c.data := by
    unfold enlarge_if_needed
    split
    · exact List.take_left _ _
    · exact List.take_length _
  have herr : (add_dict (enlarge_if_needed factor c).info
      (enlarge_if_needed factor c).value_dict values derived weight (some lp)
      logpriors loglikes).2 = some PyErr.loggedError :=
    add_dict_arity_err _ _ _ _ _ _ _ _ (by rw [hinfo]; exact h)
  refine ⟨?_, ?_, ?_⟩
  · simp only [addPoint]
    rw [herr]
  · simp only [addPoint]
    rw [herr]
    simp [hn]
  · simp only [addPoint]
    rw [herr]
    simp [hdata]

/-- Witness for `arity_mismatch_append_atomic`: an empty sampled-values
list against a one-parameter schema. -/
theorem arity_mismatch_append_atomic_witness :
    (([] : List ℚ).length
        ≠ (initCollection exampleModel 2).info.sampled_params.length ∨
      ∃ ds, (none : Option (List ℚ)) = some ds ∧
        ds.length ≠ (initCollection exampleModel 2).info.derived_params.length) ∧
    ((addPoint none (initCollection exampleModel 2) [] none 1 (some 0) none
        none).2 = some PyErr.loggedError ∧
      (addPoint none (initCollection exampleModel 2) [] none 1 (some 0) none
        none).1.n = (initCollection exampleModel 2).n ∧
      (addPoint none (initCollection exampleModel 2) [] none 1 (some 0) none
        none).1.data.take (initCollection exampleModel 2).data.length
        = (initCollection exampleModel 2).data) :=
  ⟨Or.inl (by decide), arity_mismatch_append_atomic none
    (initCollection exampleModel 2) [] none 1 0 none none (Or.inl (by decide))⟩

/-- C4: the stored quantities of an append. In general (on the example
schema, for arbitrary rational inputs): with the log-posterior omitted it
is derived as the sum of the prior and likelihood components, and the
append stores `minus_log_posterior = -log_posterior`,
`minus_log_prior = -sum(log_priors)` with per-component
`minus_log_prior__i = -log_priors[i]`, `chi2 = -2*sum(log_likelihoods)`
with per-component `chi2__j = -2*log_likelihoods[j]`, the row written to
the table being exactly the value dictionary's contents; with an explicit
log-posterior, `minus_log_posterior = -log_posterior`. Concretely, for
`log_priors = [-1]` and `log_likelihoods = [-2, -3]` with no explicit
posterior, the stored row has `minus_log_posterior = 6`,
`minus_log_prior = 1`, `minus_log_prior__p0 = 1`, `chi2 = 10`,
`chi2__l1 = 4` and `chi2__l2 = 6`. -/
theorem append_stores_posterior_prior_chi2 :
    (∀ v lp1 ll1 ll2 : ℚ,
      (generalAppend v lp1 ll1 ll2).2 = none ∧
      dictGet (generalAppend v lp1 ll1 ll2).1.value_dict _minuslogpost
        = some (some (-(lp1 + ll1 + ll2))) ∧
      dictGet (generalAppend v lp1 ll1 ll2).1.value_dict _minuslogprior
        = some (some (-lp1)) ∧
      dictGet (generalAppend v lp1 ll1 ll2).1.value_dict "minuslogprior__p0"
        = some (some (-lp1)) ∧
      dictGet (generalAppend v lp1 ll1 ll2).1.value_dict _chi2
        = some (some (-2 * (ll1 + ll2))) ∧
      dictGet (generalAppend v lp1 ll1 ll2).1.value_dict "chi2__l1"
        = some (some (-2 * ll1)) ∧
      dictGet (generalAppend v lp1 ll1 ll2).1.value_dict "chi2__l2"
        = some (some (-2 * ll2)) ∧
      (generalAppend v lp1 ll1 ll2).1.data.get? 0
        = some ((generalAppend v lp1 ll1 ll2).1.value_dict.map (fun p => p.2))) ∧
    (∀ v lp : ℚ,
      dictGet (explicitPostAppend v lp).1.value_dict _minuslogpost
        = some (some (-lp))) ∧
    (getCell (generalAppend 0 (-1) (-2) (-3)).1 0 _minuslogpost = some (some 6) ∧
      getCell (generalAppend 0 (-1) (-2) (-3)).1 0 _minuslogprior = some (some 1) ∧
      getCell (generalAppend 0 (-1) (-2) (-3)).1 0 "minuslogprior__p0"
        = some (some 1) ∧
      getCell (generalAppend 0 (-1) (-2) (-3)).1 0 _chi2 = some (some 10) ∧
      getCell (generalAppend 0 (-1) (-2) (-3)).1 0 "chi2__l1" = some (some 4) ∧
      getCell (generalAppend 0 (-1) (-2) (-3)).1 0 "chi2__l2" = some (some 6)) := by
  refine ⟨?_, ?_, ?_⟩
  · intro v lp1 ll1 ll2
    refine ⟨rfl, ?_, ?_, ?_, ?_, ?_, ?_, rfl⟩ <;>
      · simp [generalAppend, addPoint, add_dict, computeLogpost, catchValueError,
          sumPriorsLikes, pySum, setPairs, enlarge_if_needed, growAmount,
          arangeCount, initCollection, exampleModel, columns, minuslogprior_names,
          chi2_names, nanRow, dictSet, dictGet, _weight, _minuslogpost,
          _minuslogprior, _chi2, _separator]
        try ring
  · intro v lp
    simp [explicitPostAppend, addPoint, add_dict, computeLogpost, catchValueError,
      sumPriorsLikes, pySum, setPairs, enlarge_if_needed, growAmount,
      arangeCount, initCollection, exampleModel, columns, minuslogprior_names,
      chi2_names, nanRow, dictSet, dictGet, _weight, _minuslogpost,
      _minuslogprior, _chi2, _separator]
  · refine ⟨?_, ?_, ?_, ?_, ?_, ?_⟩ <;>
      · simp [generalAppend, addPoint, add_dict, computeLogpost, catchValueError,
          sumPriorsLikes, pySum, setPairs, enlarge_if_needed, growAmount,
          arangeCount, initCollection, exampleModel, columns, minuslogprior_names,
          chi2_names, nanRow, dictSet, dictGet, getCell, colIdx, _weight,
          _minuslogpost, _minuslogprior, _chi2, _separator]
        try norm_num

/-- Helper: one batcher step, with `T > 1` and the accumulated weight
reaching the threshold: it emits the floor-divided weight and keeps the
remainder. -/
theorem add_to_collection_flush (T r w : ℕ) (h1 : T > 1) (h2 : r + w ≥ T) :
    add_to_collection ⟨T, r⟩ w = (⟨T, (r + w) % T⟩, some ((r + w) / T)) := by
  simp [add_to_collection, h1, h2]

/-- Helper: one batcher step, with `T > 1` and the accumulated weight
below the threshold: it carries the whole total and emits nothing. -/
theorem add_to_collection_carry (T r w : ℕ) (h1 : T > 1) (h2 : r + w < T) :
    add_to_collection ⟨T, r⟩ w = (⟨T, r + w⟩, none) := by
  simp only [add_to_collection, if_pos h1]
  rw [if_neg (by omega)]

/-- Helper: one batcher step with `T ≤ 1`: the raw weight is emitted
unchanged and the state is untouched. -/
theorem add_to_collection_plain (T r w : ℕ) (h1 : ¬ T > 1) :
    add_to_collection ⟨T, r⟩ w = (⟨T, r⟩, some w) := by
  simp [add_to_collection, h1]

/-- Helper: the batcher invariant, generalized over the carried remainder.
From a remainder `r < T` (with `T` the thinning factor of the state), the
emitted weights times `T` plus the final remainder equal `r` plus the raw
weights, and the final remainder stays below `T`. -/
theorem runBatcher_invariant (T : ℕ) (hT : 1 ≤ T) :
    ∀ (ws : List ℕ) (r : ℕ), r < T →
      ((runBatcher ⟨T, r⟩ ws).2.sum * T + (runBatcher ⟨T, r⟩ ws).1.added_weight
        = r + ws.sum) ∧
      (runBatcher ⟨T, r⟩ ws).1.added_weight < T ∧
      (runBatcher ⟨T, r⟩ ws).1.output_thin = T := by
  intro ws
  induction ws with
  | nil => intro r hr; simp [runBatcher, hr]
  | cons w ws ih =>
    intro r hr
    by_cases h1 : T > 1
    · by_cases h2 : r + w ≥ T
      · have hmod : (r + w) % T < T := Nat.mod_lt _ (by omega)
        obtain ⟨hsum, hlt, hthin⟩ := ih ((r + w) % T) hmod
        simp only [runBatcher, add_to_collection_flush T r w h1 h2]
        refine ⟨?_, hlt, hthin⟩
        simp only [Option.toList, List.singleton_append, List.sum_cons]
        have hdiv : T * ((r + w) / T) + (r + w) % T = r + w := Nat.div_add_mod _ _
        rw [Nat.add_mul, Nat.mul_comm ((r + w) / T) T]
        omega
      · have hlt2 : r + w < T := by omega
        obtain ⟨hsum, hlt, hthin⟩ := ih (r + w) hlt2
        simp only [runBatcher, add_to_collection_carry T r w h1 hlt2]
        refine ⟨?_, hlt, hthin⟩
        simp only [Option.toList, List.nil_append, List.sum_cons]
        omega
    · obtain ⟨hsum, hlt, hthin⟩ := ih r hr
      simp only [runBatcher, add_to_collection_plain T r w h1]
      refine ⟨?_, hlt, hthin⟩
      simp only [Option.toList, List.singleton_append, List.sum_cons]
      have hT1 : T = 1 := by omega
      subst hT1
      omega

/-- C3: for every thinning factor `T ≥ 1` and every sequence of raw
weights, the emitted weights times `T` plus the carried remainder equal
the raw-weight total after each step (each prefix), the remainder stays in
`[0, T)`, a step commits no row exactly when `T > 1` and
`remainder + weight < T`, and when `T ≤ 1` every step emits the raw
weight unchanged. -/
theorem batcher_conservation (T : ℕ) (hT : 1 ≤ T) (ws : List ℕ) :
    ((runBatcher ⟨T, 0⟩ ws).2.sum * T + (runBatcher ⟨T, 0⟩ ws).1.added_weight
      = ws.sum) ∧
    (runBatcher ⟨T, 0⟩ ws).1.added_weight < T ∧
    (∀ (s : OneSamplePointState) (w : ℕ),
      (add_to_collection s w).2 = none ↔
        s.output_thin > 1 ∧ s.added_weight + w < s.output_thin) ∧
    (∀ (s : OneSamplePointState) (w : ℕ),
      s.output_thin ≤ 1 → (add_to_collection s w).2 = some w) := by
  obtain ⟨hsum, hlt, _⟩ := runBatcher_invariant T hT ws 0 (by omega)
  refine ⟨by simpa using hsum, hlt, ?_, ?_⟩
  · intro s w
    obtain ⟨t, r⟩ := s
    simp only
    constructor
    · intro h
      by_cases h1 : t > 1
      · by_cases h2 : r + w ≥ t
        · rw [add_to_collection_flush t r w h1 h2] at h
          exact absurd h (by simp)
        · exact ⟨h1, by omega⟩
      · rw [add_to_collection_plain t r w h1] at h
        exact absurd h (by simp)
    · rintro ⟨h1, h2⟩
      rw [add_to_collection_carry t r w h1 h2]
  · intro s w h
    obtain ⟨t, r⟩ := s
    simp only at h
    rw [add_to_collection_plain t r w (by omega)]

/-! ## Theorems: the collection itself -/

/-- C2 counterexample: a successful `OnePoint.add` leaves the logical
length at `0`, not `1` — `OnePoint.add` runs the ordinary append and then
sets `_n = 0`, so `len()` never returns `1`. -/
theorem onePoint_add_length_not_one :
    (onePointAdd none (initCollection exampleModel 1) [1/2] none 1 (some (-1))
        none none).2 = none ∧
    (onePointAdd none (initCollection exampleModel 1) [1/2] none 1 (some (-1))
        none none).1.n = 0 ∧
    ¬ (onePointAdd none (initCollection exampleModel 1) [1/2] none 1 (some (-1))
        none none).1.n = 1 := by
  refine ⟨rfl, rfl, ?_⟩
  intro hcon
  have h0 : (onePointAdd none (initCollection exampleModel 1) [1/2] none 1 (some (-1))
      none none).1.n = 0 := rfl
  rw [h0] at hcon
  exact absurd hcon (by decide)

/-- C2 amended: after every successful `OnePoint.add` the logical length
is exactly `0` (the counter is reset so the single held point in physical
row 0 is overwritten by the next append and `len()` reports `0`). -/
theorem onePoint_add_resets_length_to_zero (factor : Option ℚ)
    (c : CollectionState) (values : List ℚ) (derived : Option (List ℚ))
    (weight : ℚ) (logpost : Option ℚ) (logpriors loglikes : Option (List ℚ))
    (h : (onePointAdd factor c values derived weight logpost logpriors
        loglikes).2 = none) :
    (onePointAdd factor c values derived weight logpost logpriors
        loglikes).1.n = 0 := by
  unfold onePointAdd at h ⊢
  rcases hm : addPoint factor c values derived weight logpost logpriors loglikes
    with ⟨c1, e⟩
  cases e with
  | none => rfl
  | some e =>
    rw [hm] at h
    simp at h

/-- Witness for `onePoint_add_resets_length_to_zero` on the example
model. -/
theorem onePoint_add_resets_length_to_zero_witness :
    ((onePointAdd none (initCollection exampleModel 1) [0] none 1 (some 0)
        none none).2 = none) ∧
    (onePointAdd none (initCollection exampleModel 1) [0] none 1 (some 0)
        none none).1.n = 0 :=
  ⟨rfl, onePoint_add_resets_length_to_zero none (initCollection exampleModel 1)
    [0] none 1 (some 0) none none rfl⟩

/-- C6: with `logpost` omitted and `logpriors` missing, `sum(None)` raises
a `TypeError`, which the `except ValueError` clause does not catch: the
append fails with an uncaught `TypeError` instead of the descriptive
`LoggedError` the claim promises. -/
theorem add_missing_components_uncaught_typeerror :
    (addPoint none (initCollection exampleModel 2) [0] none 1 none none
        (some [-1])).2 = some PyErr.typeError ∧
    ¬ (addPoint none (initCollection exampleModel 2) [0] none 1 none none
        (some [-1])).2 = some PyErr.loggedError := by
  have h1 : (addPoint none (initCollection exampleModel 2) [0] none 1 none none
      (some [-1])).2 = some PyErr.typeError := rfl
  refine ⟨h1, ?_⟩
  rw [h1]
  decide

/-- C10: the shared `_value_dict` is never cleared between appends, so the
second append — which omits `logpriors` while supplying an explicit
log-posterior — stores in its prior columns the values left over from the
first append (`1`, i.e. `-(-1)`), not `nan`. -/
theorem stale_value_dict_second_append :
    firstAppend.2 = none ∧ secondAppend.2 = none ∧
    getCell secondAppend.1 1 _minuslogprior
      = getCell secondAppend.1 0 _minuslogprior ∧
    getCell secondAppend.1 1 _minuslogprior = some (some 1) ∧
    getCell secondAppend.1 1 "minuslogprior__p0"
      = getCell secondAppend.1 0 "minuslogprior__p0" ∧
    getCell secondAppend.1 1 "minuslogprior__p0" = some (some 1) := by
  refine ⟨rfl, rfl, rfl, ?_, rfl, ?_⟩
  · have h : getCell secondAppend.1 1 _minuslogprior
        = some (some (-(List.foldl (fun a b => a + b) 0 [(-1 : ℚ)]))) := rfl
    rw [h]
    norm_num
  · have h : getCell secondAppend.1 1 "minuslogprior__p0"
        = some (some (-(-1 : ℚ))) := rfl
    rw [h]
    norm_num

/-- Witness for `batcher_conservation` at `T = 3` and weights
`[2, 2, 5]`: two emissions and a final remainder of zero. -/
theorem batcher_conservation_witness :
    (1 ≤ 3) ∧
    (((runBatcher ⟨3, 0⟩ [2, 2, 5]).2.sum * 3
        + (runBatcher ⟨3, 0⟩ [2, 2, 5]).1.added_weight = [2, 2, 5].sum) ∧
      (runBatcher ⟨3, 0⟩ [2, 2, 5]).1.added_weight < 3 ∧
      (∀ (s : OneSamplePointState) (w : ℕ),
        (add_to_collection s w).2 = none ↔
          s.output_thin > 1 ∧ s.added_weight + w < s.output_thin) ∧
      (∀ (s : OneSamplePointState) (w : ℕ),
        s.output_thin ≤ 1 → (add_to_collection s w).2 = some w)) :=
  ⟨by decide, batcher_conservation 3 (by decide) [2, 2, 5]⟩

end Cobaya
